import Mathlib

/-!
Verification of the RAG (retrieval-augmented generation) core of the
CodemateAI backend: vector similarity search (`app/services/rag.py`),
document ingestion (`app/services/document_processor.py`), summarization
(`app/services/summarization.py`) and the query orchestrator.

Python strings are modelled as `List Char`, embedding vectors as `List ℚ`,
the pgvector distance operator `<=>` as an abstract distance function, and
the database as an explicit record of table rows threaded through each
operation.  External collaborators (embedding provider, language model,
Google Drive) are modelled as oracle functions returning `Except` values.
-/

namespace Codemate

/-- Text (Python `str`) modelled as a list of characters. -/
abbrev Str := List Char

/-! ### Descending sort by a rational key

Models the SQL `ORDER BY dc.embedding <=> $1::vector` stage: ordering by
ascending distance is the same as ordering by descending similarity, since
`similarity = 1 - distance`. -/

/-- Insert `a` into a list kept in descending order of the key `f`. -/
def insertDescBy (f : α → ℚ) (a : α) : List α → List α
  | [] => [a]
  | b :: l => if f b ≤ f a then a :: b :: l else b :: insertDescBy f a l

/-- Insertion sort, descending by the key `f`. -/
def sortDescBy (f : α → ℚ) : List α → List α
  | [] => []
  | a :: l => insertDescBy f a (sortDescBy f l)

/-! ### Table rows -/

/-- A row of the `Document` table (prisma model `Document`). -/
structure DocRec where
  id : Str
  googleDocId : Str
  userId : Str
  title : Str
  dtype : Str
  content : Str
  isProcessed : Bool
deriving DecidableEq, Repr

/-- A row of the `DocumentChunk` table.  `metaSize` and `metaTitle` model the
serialized metadata json (`chunk_size`, `document_title`); the embedding is
nullable until assigned via the raw `UPDATE ... SET embedding` statement. -/
structure ChunkRec where
  documentId : Str
  content : Str
  chunkIndex : Nat
  metaSize : Nat
  metaTitle : Str
  embedding : Option (List ℚ)
deriving DecidableEq, Repr

/-- A row returned by the raw similarity-search SELECT in
`RAGService._search_similar_chunks`. -/
structure SearchRow where
  documentId : Str
  content : Str
  chunkIndex : Nat
  documentTitle : Str
  documentType : Str
  similarity : ℚ
deriving DecidableEq, Repr

/-! ### Vector similarity search (`RAGService._search_similar_chunks`) -/

/-- One SELECTed row: the join of a chunk with its parent document, scored
with `similarity = 1 - (dc.embedding <=> $1::vector)`.  `dist` is the
abstract pgvector cosine-distance operator. -/
def scoreRow (dist : List ℚ → List ℚ → ℚ) (q : List ℚ) (d : DocRec) (c : ChunkRec) :
    SearchRow :=
  { documentId := c.documentId
    content := c.content
    chunkIndex := c.chunkIndex
    documentTitle := d.title
    documentType := d.dtype
    similarity := 1 - dist (c.embedding.getD []) q }

/-- The SQL fetch stage: `JOIN "Document" d ON dc."documentId" = d.id`,
`WHERE dc."documentId" = ANY($2) AND dc.embedding IS NOT NULL`,
`ORDER BY dc.embedding <=> $1::vector`, `LIMIT lim`. -/
def searchFetch (dist : List ℚ → List ℚ → ℚ) (documents : List DocRec)
    (chunks : List ChunkRec) (q : List ℚ) (documentIds : List Str) (lim : Nat) :
    List SearchRow :=
  let joined := chunks.filterMap (fun c =>
    match documents.find? (fun d => d.id == c.documentId) with
    | some d =>
        if c.documentId ∈ documentIds ∧ c.embedding.isSome then
          some (scoreRow dist q d c)
        else none
    | none => none)
  (sortDescBy (fun r => r.similarity) joined).take lim

/-- Model of `RAGService._search_similar_chunks` (the body inside the `try`):
fetch `top_k * 2` rows ordered by vector distance, filter the over-fetched
set by `similarity >= similarity_threshold`, then truncate to `top_k`. -/
def searchSimilarChunks (dist : List ℚ → List ℚ → ℚ) (documents : List DocRec)
    (chunks : List ChunkRec) (q : List ℚ) (documentIds : List Str) (topK : Nat)
    (threshold : ℚ) : List SearchRow :=
  ((searchFetch dist documents chunks q documentIds (topK * 2)).filter
      (fun r => threshold ≤ r.similarity)).take topK

/-- `db.document.find_many(where={"userId": ..., "isProcessed": True})`:
the candidate documents used by the query pipeline. -/
def candidateDocuments (userId : Str) (documents : List DocRec) : List DocRec :=
  documents.filter (fun d => d.userId == userId && d.isProcessed)

/-- The ids of the candidate documents (`[doc.id for doc in user_documents]`). -/
def candidateIds (userId : Str) (documents : List DocRec) : List Str :=
  (candidateDocuments userId documents).map (fun d => d.id)

/-! ### Chunker

The ingestion pipeline delegates splitting to LangChain's
`RecursiveCharacterTextSplitter`, configured in `DocumentProcessor.__init__`
with `chunk_size=1000`, `chunk_overlap=200` and
`separators=["\n\n", "\n", ". ", " ", ""]`; the splitting algorithm itself is
library code absent from this repository, so it is modelled from the spec. -/

/-- Modelled from the spec: the priority-ordered separator list (paragraph,
line, sentence, word; the empty separator is the hard character cut). -/
def separators : List Str := [['\n', '\n'], ['\n'], ['.', ' '], [' ']]

/-- Modelled from the spec: for one separator, the largest cut position
`e ≤ maxSize` past the overlap such that the piece `t.take e` ends with the
separator, if any. -/
def sepCut (sep : Str) (t : Str) (maxSize overlap : Nat) : Option Nat :=
  ((List.range (maxSize + 1)).filter
      (fun e => decide (overlap < e) && sep.isSuffixOf (t.take e))).getLast?

/-- Modelled from the spec: the cut position for the next chunk, preferring
the earliest separator in priority order that yields a piece within
`maxSize`, falling back to a hard character cut at `maxSize`. -/
def cutPoint (t : Str) (maxSize overlap : Nat) : Nat :=
  ((separators.filterMap (fun sep => sepCut sep t maxSize overlap)).head?).getD maxSize

/-- Modelled from the spec: the splitting loop.  Each chunk ends at the
chosen cut position and the next chunk restarts `overlap` characters before
that cut.  Fuel bounds the recursion; `chunkerSplit` supplies enough. -/
def chunkLoop (maxSize overlap : Nat) : Nat → Str → List Str
  | 0, _ => []
  | fuel + 1, t =>
    if t.length ≤ maxSize then [t]
    else
      let e := cutPoint t maxSize overlap
      t.take e :: chunkLoop maxSize overlap fuel (t.drop (e - overlap))

/-- Modelled from the spec: `Chunker.split`.  Empty or whitespace-only input
yields the empty chunk sequence; anything else is split by `chunkLoop`. -/
def chunkerSplit (t : Str) (maxSize overlap : Nat) : List Str :=
  if t.all Char.isWhitespace then [] else chunkLoop maxSize overlap t.length t

/-- The text-splitter instance configured by `DocumentProcessor.__init__`:
`chunk_size=1000`, `chunk_overlap=200`. -/
def splitText (t : Str) : List Str :=
  chunkerSplit t 1000 200

/-- Concatenation with each overlap removed: the head chunk followed by
every later chunk with its leading `overlap` characters dropped. -/
def reconstruct (overlap : Nat) : List Str → Str
  | [] => []
  | c :: cs => c ++ (cs.map (fun x => x.drop overlap)).flatten

/-! ### Persistence store -/

/-- Chat message role. -/
inductive Role where
  | user
  | assistant
deriving DecidableEq, Repr

/-- A citation attached to an assistant message (`app/models.py`,
`DocumentSource`). -/
structure DocumentSource where
  documentId : Str
  documentTitle : Str
  documentType : Str
  chunkText : Str
  similarity : Option ℚ
deriving DecidableEq, Repr

/-- A row of the `ChatSession` table. -/
structure SessionRec where
  id : Str
  userId : Str
  title : Str
  updatedAt : Nat
deriving DecidableEq, Repr

/-- A row of the `ChatMessage` table.  `sources` models the serialized
citation list stored on assistant messages. -/
structure MessageRec where
  sessionId : Str
  role : Role
  content : Str
  sources : Option (List DocumentSource)
deriving DecidableEq, Repr

/-- The persistence layer: one field per table, plus a counter used to
generate fresh primary keys. -/
structure Store where
  documents : List DocRec
  chunks : List ChunkRec
  sessions : List SessionRec
  messages : List MessageRec
  nextId : Nat
deriving DecidableEq, Repr

/-- A fresh primary key (the database generates cuids). -/
def genId (n : Nat) : Str := (toString n).toList

/-! ### Ingestion pipeline (`DocumentProcessor`) -/

/-- The payload returned by the document-source collaborator
(`drive_service.get_document_content` plus the file metadata). -/
structure DocData where
  title : Str
  content : Str
  dtype : Str
deriving DecidableEq, Repr

/-- The chunk row written by one loop iteration of
`_process_single_document`: `db.documentchunk.create` with `chunkIndex = idx`
and metadata `{chunk_size, document_title}`, followed by the raw
`UPDATE ... SET embedding` statement. -/
def mkChunkRow (docRowId titleStr : Str) (p : Nat × (Str × List ℚ)) : ChunkRec :=
  { documentId := docRowId
    content := p.2.1
    chunkIndex := p.1
    metaSize := p.2.1.length
    metaTitle := titleStr
    embedding := some p.2.2 }

/-- Append one chunk row to the store. -/
def addChunk (docRowId titleStr : Str) (st : Store) (p : Nat × (Str × List ℚ)) : Store :=
  { st with chunks := st.chunks ++ [mkChunkRow docRowId titleStr p] }

/-- The chunk rows created for one document from the zipped
`(chunk_text, embedding)` pairs, enumerated from 0. -/
def newChunks (docRowId titleStr : Str) (texts : List Str) (embs : List (List ℚ)) :
    List ChunkRec :=
  ((texts.zip embs).enum).map (mkChunkRow docRowId titleStr)

/-- `db.document.update(where={"id": ...}, data={"isProcessed": True})`. -/
def markProcessed (docRowId : Str) (st : Store) : Store :=
  { st with documents := st.documents.map (fun d =>
      if d.id == docRowId then { d with isProcessed := true } else d) }

/-- The chunk/embed/persist half of `_process_single_document` (from the
`chunks = self.text_splitter.split_text(...)` line onward).  `embedO` models
`EmbeddingService.embed_documents`; an `error` models a raised exception,
paired with the store as left by the partial run. -/
def chunkEmbedPersist (embedO : List Str → Except Str (List (List ℚ)))
    (docRowId : Str) (dd : DocData) (st : Store) : Store × Option Str :=
  let chunkTexts := splitText dd.content
  if chunkTexts.isEmpty then
    (markProcessed docRowId st, none)
  else
    match embedO chunkTexts with
    | .error e => (st, some e)
    | .ok embs =>
        let st' := ((chunkTexts.zip embs).enum).foldl (addChunk docRowId dd.title) st
        (markProcessed docRowId st', none)

/-- The new document row written by `db.document.create`. -/
def createdDoc (userId gid : Str) (dd : DocData) (n : Nat) : DocRec :=
  { id := genId n, googleDocId := gid, userId := userId, title := dd.title,
    dtype := dd.dtype, content := dd.content, isProcessed := false }

/-- The store after `db.document.create` for a first-time document. -/
def createStore (userId gid : Str) (dd : DocData) (st : Store) : Store :=
  { st with
    documents := st.documents ++ [createdDoc userId gid dd st.nextId],
    nextId := st.nextId + 1 }

/-- `db.documentchunk.delete_many(where={"documentId": ...})`. -/
def deleteChunksOf (exId : Str) (st : Store) : Store :=
  { st with chunks := st.chunks.filter (fun c => c.documentId != exId) }

/-- `db.document.update` on refresh: overwrite title and content and reset
`isProcessed` to false. -/
def refreshDocUpdate (exId : Str) (dd : DocData) (st : Store) : Store :=
  { st with
    documents := st.documents.map (fun d =>
      if d.id == exId then
        { d with title := dd.title, content := dd.content, isProcessed := false }
      else d) }

/-- Model of `DocumentProcessor._process_single_document`.  `fetch` is the
combined Drive metadata and content fetch for this document id. -/
def processSingleDocument (fetch : Except Str DocData)
    (embedO : List Str → Except Str (List (List ℚ)))
    (userId documentId : Str) (isRefresh : Bool) (st : Store) : Store × Option Str :=
  match fetch with
  | .error e => (st, some e)
  | .ok dd =>
    match st.documents.find? (fun d => d.googleDocId == documentId) with
    | some existing =>
        if !isRefresh then (st, none)
        else
          chunkEmbedPersist embedO existing.id dd
            (refreshDocUpdate existing.id dd (deleteChunksOf existing.id st))
    | none =>
        chunkEmbedPersist embedO (genId st.nextId) dd (createStore userId documentId dd st)

/-- One iteration of the `process_documents` loop: the body wrapped in the
per-document try/except that logs the failed id and continues. -/
def processStep (fetchFor : Str → Except Str DocData)
    (embedO : List Str → Except Str (List (List ℚ)))
    (userId : Str) (isRefresh : Bool) (acc : Store × List Str) (documentId : Str) :
    Store × List Str :=
  match processSingleDocument (fetchFor documentId) embedO userId documentId
      isRefresh acc.1 with
  | (st', none) => (st', acc.2)
  | (st', some _) => (st', acc.2 ++ [documentId])

/-- Model of `DocumentProcessor.process_documents`: a sequential loop over
the ids.  The second component is the sequence of logged failure ids; the
call itself always returns (the Python function returns `None`). -/
def processDocuments (fetchFor : Str → Except Str DocData)
    (embedO : List Str → Except Str (List (List ℚ)))
    (userId : Str) (isRefresh : Bool) (documentIds : List Str) (st : Store) :
    Store × List Str :=
  documentIds.foldl (processStep fetchFor embedO userId isRefresh) (st, [])

/-- The response body of the `/documents/select` route (`select_documents`):
built from the id count alone, before the background processing task runs. -/
def selectDocumentsResponse (documentIds : List Str) : Str × Nat :=
  (("Processing ".toList) ++ (toString documentIds.length).toList ++
    (" document(s)".toList), documentIds.length)

/-- Model of the `/documents/select` route: respond with the count-only
message, then run `process_documents` as a background task. -/
def selectDocuments (fetchFor : Str → Except Str DocData)
    (embedO : List Str → Except Str (List (List ℚ)))
    (userId : Str) (documentIds : List Str) (st : Store) :
    (Str × Nat) × Store × List Str :=
  (selectDocumentsResponse documentIds,
   processDocuments fetchFor embedO userId false documentIds st)

/-! ### Query orchestrator (`RAGService`) -/

/-- Oracles for the external collaborators of `RAGService`: the embedding
provider, the pgvector distance operator, the availability of the vector
engine (any engine failure is caught inside `_search_similar_chunks`), the
two Gemini prompt paths of `query`, the streaming model call, and the wall
clock. -/
structure RagOracles where
  embed : Str → Except Str (List ℚ)
  dist : List ℚ → List ℚ → ℚ
  rawSearchOk : Bool
  genContext : Str → List SearchRow → Except Str Str
  genFallback : Str → Except Str Str
  streamGen : Str → List SearchRow → List Str × Option Str
deriving Inhabited

/-- The wall clock value used for session timestamps. -/
def nowTick : Nat := 0

/-- `_search_similar_chunks` including its `try`/`except` wrapper: any
failure of the vector search is caught and an empty list is returned.
Defaults from the source: `top_k = 5`, `similarity_threshold = 0.3`. -/
def searchCaught (o : RagOracles) (userId : Str) (q : List ℚ) (st : Store) :
    List SearchRow :=
  if o.rawSearchOk then
    searchSimilarChunks o.dist st.documents st.chunks q
      (candidateIds userId st.documents) 5 (3 / 10)
  else []

/-- One citation: `chunkText` is `chunk["content"][:200] + "..."` when the
chunk text exceeds 200 characters, the full text otherwise. -/
def mkSource (r : SearchRow) : DocumentSource :=
  { documentId := r.documentId
    documentTitle := r.documentTitle
    documentType := r.documentType
    chunkText :=
      if 200 < r.content.length then r.content.take 200 ++ ['.', '.', '.']
      else r.content
    similarity := some r.similarity }

/-- The lazily created session title:
`question[:50] + "..." if len(question) > 50 else question`. -/
def sessionTitle (question : Str) : Str :=
  if 50 < question.length then question.take 50 ++ ['.', '.', '.'] else question

/-- The value returned by `RAGService.query`. -/
structure QueryResult where
  answer : Str
  sources : List DocumentSource
  sessionId : Str
  foundInDocuments : Bool
deriving DecidableEq, Repr

/-- `db.chatsession.update(..., data={"updatedAt": datetime.now()})`. -/
def touchSession (sid : Str) (now : Nat) (st : Store) : Store :=
  { st with
    sessions := st.sessions.map (fun s =>
      if s.id == sid then { s with updatedAt := now } else s) }

/-- Step 1 of `RAGService.query`: resolve the session, creating one (titled
from the question) when no `session_id` was supplied. -/
def sessionResolve (userId question : Str) (sessionId? : Option Str) (st : Store) :
    Str × Store :=
  match sessionId? with
  | some s => (s, st)
  | none =>
      (genId st.nextId,
        { st with
          sessions := st.sessions ++
            [{ id := genId st.nextId, userId := userId, title := sessionTitle question,
               updatedAt := nowTick }],
          nextId := st.nextId + 1 })

/-- Step 2 of `RAGService.query`: persist the user message. -/
def withUserMessage (sid question : Str) (st : Store) : Store :=
  { st with
    messages := st.messages ++
      [{ sessionId := sid, role := Role.user, content := question, sources := none }] }

/-- The store after steps 1 and 2 of `RAGService.query`. -/
def preSearchStore (userId question : Str) (sessionId? : Option Str) (st : Store) : Store :=
  withUserMessage (sessionResolve userId question sessionId? st).1 question
    (sessionResolve userId question sessionId? st).2

/-- Model of `RAGService.query`.  An `error` result models the re-raised
exception of the `except ... raise` block, paired with the store as left by
the partial run (no write is rolled back). -/
def query (o : RagOracles) (userId : Str) (question : Str) (sessionId? : Option Str)
    (st : Store) : Except (Str × Store) (QueryResult × Store) :=
  let sid := (sessionResolve userId question sessionId? st).1
  let st2 := preSearchStore userId question sessionId? st
  match o.embed question with
  | .error e => .error (e, st2)
  | .ok qe =>
      let chunks := searchCaught o userId qe st2
      match (if chunks.isEmpty then o.genFallback question
             else o.genContext question chunks) with
      | .error e => .error (e, st2)
      | .ok answer =>
          let sources := chunks.map mkSource
          let st3 :=
            { st2 with
              messages := st2.messages ++
                [{ sessionId := sid, role := Role.assistant, content := answer,
                   sources := some sources }] }
          let st4 := touchSession sid nowTick st3
          .ok ({ answer := answer, sources := sources, sessionId := sid,
                 foundInDocuments := !chunks.isEmpty }, st4)

/-- A fragment yielded by `query_stream`: a JSON `{"content": ...}` chunk or
the single terminal `{"error": ...}` chunk. -/
inductive StreamFrag where
  | content (s : Str)
  | errorFrag (s : Str)
deriving DecidableEq, Repr

/-- Model of `RAGService.query_stream`: embed, search (with the same caught
search), stream model fragments, and on any failure yield one terminal
error fragment.  The second component is the store after the call. -/
def queryStream (o : RagOracles) (userId : Str) (question : Str)
    (sessionId? : Option Str) (st : Store) : List StreamFrag × Store :=
  match o.embed question with
  | .error e => ([StreamFrag.errorFrag e], st)
  | .ok qe =>
      let chunks := searchCaught o userId qe st
      let fr := o.streamGen question chunks
      (fr.1.map StreamFrag.content ++
        (match fr.2 with
         | some e => [StreamFrag.errorFrag e]
         | none => []), st)

/-! ### Summarization (`SummarizationService`) -/

/-- Python `len(s.split())`: the number of maximal non-whitespace runs. -/
def wordCount (s : Str) : Nat :=
  ((s.splitOnP Char.isWhitespace).filter (fun w => !w.isEmpty)).length

/-- One content part: `f"### {doc.title} ({doc.type})\n\n{doc.content}\n\n"`. -/
def summaryPart (d : DocRec) : Str :=
  ['#', '#', '#', ' '] ++ d.title ++ [' ', '('] ++ d.dtype ++ [')', '\n', '\n'] ++
    d.content ++ ['\n', '\n']

/-- `"\n".join(content_parts)`. -/
def combinedContent (docs : List DocRec) : Str :=
  (List.intersperse ['\n'] (docs.map summaryPart)).flatten

/-- Oracles for the three Gemini summary prompts. -/
structure SumOracles where
  concise : Str → List Str → Except Str Str
  detailed : Str → List Str → Except Str Str
  bulletPoints : Str → List Str → Except Str Str

/-- The value returned by `SummarizationService.summarize_documents`. -/
structure SummaryResult where
  summary : Str
  documentsSummarized : List Str
  wordCount : Nat
deriving DecidableEq, Repr

/-- The summary-type dispatch of `summarize_documents`: the three prompt
paths truncate the combined content to 5000, 8000 and 6000 characters
respectively; an unknown type raises a `ValueError` before any model call. -/
def summarizeGen (o : SumOracles) (documents : List DocRec) (summaryType : Str) :
    Except Str Str :=
  let titles := documents.map (fun d => d.title)
  let combined := combinedContent documents
  if summaryType = "concise".toList then o.concise (combined.take 5000) titles
  else if summaryType = "detailed".toList then o.detailed (combined.take 8000) titles
  else if summaryType = "bullet_points".toList then
    o.bulletPoints (combined.take 6000) titles
  else .error (("Invalid summary type: ".toList) ++ summaryType)

/-- Model of `SummarizationService.summarize_documents`.  Any failure
(no accessible documents, unknown summary type, model error) propagates as
a single `error`. -/
def summarizeDocuments (o : SumOracles) (userId : Str) (documentIds : List Str)
    (summaryType : Str) (st : Store) : Except Str SummaryResult :=
  let documents := st.documents.filter
    (fun d => documentIds.contains d.id && d.userId == userId)
  if documents.isEmpty then .error ("No documents found".toList)
  else
    match summarizeGen o documents summaryType with
    | .error e => .error e
    | .ok summary =>
        .ok { summary := summary, documentsSummarized := documents.map (fun d => d.title),
              wordCount := wordCount summary }

/-! ### Helper lemmas -/

instance {ε α : Type} [DecidableEq ε] [DecidableEq α] : DecidableEq (Except ε α) :=
  fun a b =>
    match a, b with
    | .error x, .error y =>
        if h : x = y then .isTrue (by rw [h])
        else .isFalse (by intro hc; cases hc; exact h rfl)
    | .error _, .ok _ => .isFalse (by intro hc; cases hc)
    | .ok _, .error _ => .isFalse (by intro hc; cases hc)
    | .ok x, .ok y =>
        if h : x = y then .isTrue (by rw [h])
        else .isFalse (by intro hc; cases hc; exact h rfl)

/-! ### Concrete fixtures for witnesses and counterexamples -/

/-- A toy distance operator. -/
def distW : List ℚ → List ℚ → ℚ := fun _ _ => 0

def docW : DocRec :=
  { id := "d1".toList, googleDocId := "g1".toList, userId := "u1".toList,
    title := "T1".toList, dtype := "docs".toList, content := "hello world".toList,
    isProcessed := true }

def docW2 : DocRec :=
  { id := "d2".toList, googleDocId := "g2".toList, userId := "u2".toList,
    title := "T2".toList, dtype := "docs".toList, content := "other text".toList,
    isProcessed := true }

def chunkW : ChunkRec :=
  { documentId := "d1".toList, content := "hello".toList, chunkIndex := 0,
    metaSize := 5, metaTitle := "T1".toList, embedding := some [1] }

def chunkW2 : ChunkRec :=
  { documentId := "d2".toList, content := "other".toList, chunkIndex := 0,
    metaSize := 5, metaTitle := "T2".toList, embedding := some [1] }

def rowW : SearchRow := scoreRow distW [] docW chunkW

def emptyStore : Store :=
  { documents := [], chunks := [], sessions := [], messages := [], nextId := 0 }

def storeW : Store :=
  { documents := [docW], chunks := [chunkW], sessions := [], messages := [], nextId := 0 }

def ddW : DocData :=
  { title := "T1".toList, content := "hello".toList, dtype := "docs".toList }

def ddEmptyW : DocData :=
  { title := "T1".toList, content := [], dtype := "docs".toList }

def embedOW : List Str → Except Str (List (List ℚ)) :=
  fun ts => .ok (ts.map (fun _ => [1]))

/-- An embedding provider that always fails. -/
def embedFailOW : List Str → Except Str (List (List ℚ)) :=
  fun _ => .error ("EMB".toList)

def fetchOkW : Str → Except Str DocData := fun _ => .ok ddW

def fetchFailAW : Str → Except Str DocData := fun gid =>
  if gid = "a".toList then .error ("boom".toList) else .ok ddW

def oGoodW : RagOracles :=
  { embed := fun _ => .ok []
    dist := distW
    rawSearchOk := true
    genContext := fun _ _ => .ok ("ans".toList)
    genFallback := fun _ => .ok ("fb".toList)
    streamGen := fun _ _ => ([], none) }

def oSearchFailW : RagOracles := { oGoodW with rawSearchOk := false }

def oEmbedFailW : RagOracles := { oGoodW with embed := fun _ => .error ("E".toList) }

def soW : SumOracles :=
  { concise := fun _ _ => .error ("S".toList)
    detailed := fun _ _ => .ok ("sum".toList)
    bulletPoints := fun _ _ => .ok ("sum".toList) }

/-- Is a user message with this content present in the chat history store? -/
def hasUserMessage (question : Str) (st : Store) : Bool :=
  st.messages.any (fun m => m.role == Role.user && m.content == question)

/-- The failing-embed query run used by the C8 witness. -/
def queryErrW : Except (Str × Store) (QueryResult × Store) :=
  query oEmbedFailW ("u1".toList) ("q".toList) none emptyStore

/-- The error-side store of the failing-embed query run. -/
def errStoreW : Store :=
  match queryErrW with
  | .error p => p.2
  | .ok p => p.2

/-- The successful query run used by the C9 witness. -/
def queryOkW : Except (Str × Store) (QueryResult × Store) :=
  query oGoodW ("u1".toList) ("q".toList) (some ("s1".toList)) storeW

/-- The result of the successful query run. -/
def queryResW : QueryResult :=
  match queryOkW with
  | .ok p => p.1
  | .error _ => { answer := [], sources := [], sessionId := [], foundInDocuments := false }

/-- The store after the successful query run. -/
def queryStoreW : Store :=
  match queryOkW with
  | .ok p => p.2
  | .error _ => emptyStore

/-! ### Theorems -/

theorem mem_insertDescBy (f : α → ℚ) (a x : α) (l : List α) :
    x ∈ insertDescBy f a l ↔ x = a ∨ x ∈ l := by
  induction l with
  | nil => simp [insertDescBy]
  | cons b t ih =>
    by_cases h : f b ≤ f a
    · simp [insertDescBy, h]
    · simp [insertDescBy, h, ih]
      tauto

theorem mem_sortDescBy (f : α → ℚ) (x : α) (l : List α) :
    x ∈ sortDescBy f l ↔ x ∈ l := by
  induction l with
  | nil => simp [sortDescBy]
  | cons b t ih => simp [sortDescBy, mem_insertDescBy, ih]

theorem pairwise_insertDescBy (f : α → ℚ) (a : α) (l : List α)
    (h : l.Pairwise (fun x y => f y ≤ f x)) :
    (insertDescBy f a l).Pairwise (fun x y => f y ≤ f x) := by
  induction l with
  | nil => simp [insertDescBy]
  | cons b t ih =>
    rcases List.pairwise_cons.mp h with ⟨hb, ht⟩
    by_cases hba : f b ≤ f a
    · simp only [insertDescBy, if_pos hba]
      refine List.pairwise_cons.mpr ⟨?_, h⟩
      intro y hy
      rcases List.mem_cons.mp hy with rfl | hyt
      · exact hba
      · exact le_trans (hb y hyt) hba
    · simp only [insertDescBy, if_neg hba]
      refine List.pairwise_cons.mpr ⟨?_, ih ht⟩
      intro y hy
      rcases (mem_insertDescBy f a y t).mp hy with rfl | hyt
      · exact le_of_not_le hba
      · exact hb y hyt

theorem pairwise_sortDescBy (f : α → ℚ) (l : List α) :
    (sortDescBy f l).Pairwise (fun x y => f y ≤ f x) := by
  induction l with
  | nil => simp [sortDescBy]
  | cons b t ih => exact pairwise_insertDescBy f b (sortDescBy f t) ih

theorem mem_searchSimilarChunks (dist : List ℚ → List ℚ → ℚ)
    (documents : List DocRec) (chunks : List ChunkRec) (q : List ℚ)
    (documentIds : List Str) (topK : Nat) (threshold : ℚ) (r : SearchRow)
    (hr : r ∈ searchSimilarChunks dist documents chunks q documentIds topK threshold) :
    r.documentId ∈ documentIds ∧
      ∃ c ∈ chunks, c.documentId = r.documentId ∧ c.content = r.content ∧
        c.chunkIndex = r.chunkIndex ∧ c.embedding ≠ none ∧
        r.similarity = 1 - dist (c.embedding.getD []) q := by
  have h1 : r ∈ (searchFetch dist documents chunks q documentIds (topK * 2)).filter
      (fun r => threshold ≤ r.similarity) := List.mem_of_mem_take hr
  have h2 : r ∈ searchFetch dist documents chunks q documentIds (topK * 2) :=
    List.mem_of_mem_filter h1
  unfold searchFetch at h2
  have h3 := List.mem_of_mem_take h2
  rw [mem_sortDescBy] at h3
  rcases List.mem_filterMap.mp h3 with ⟨c, hc, hcr⟩
  rcases hfind : documents.find? (fun d => d.id == c.documentId) with _ | d
  · rw [hfind] at hcr; simp at hcr
  · rw [hfind] at hcr
    have hcr' : (if c.documentId ∈ documentIds ∧ c.embedding.isSome then
        some (scoreRow dist q d c) else none) = some r := hcr
    by_cases hcond : c.documentId ∈ documentIds ∧ c.embedding.isSome
    · rw [if_pos hcond] at hcr'
      have hr' : scoreRow dist q d c = r := by simpa using hcr'
      subst hr'
      refine ⟨hcond.1, c, hc, rfl, rfl, rfl, ?_, rfl⟩
      intro hnone
      rw [hnone] at hcond
      simp at hcond
    · rw [if_neg hcond] at hcr'; exact absurd hcr' (by simp)

theorem threshold_searchSimilarChunks (dist : List ℚ → List ℚ → ℚ)
    (documents : List DocRec) (chunks : List ChunkRec) (q : List ℚ)
    (documentIds : List Str) (topK : Nat) (threshold : ℚ) (r : SearchRow)
    (hr : r ∈ searchSimilarChunks dist documents chunks q documentIds topK threshold) :
    threshold ≤ r.similarity := by
  have h1 := List.mem_of_mem_take hr
  simpa using (List.mem_filter.mp h1).2

theorem length_searchSimilarChunks (dist : List ℚ → List ℚ → ℚ)
    (documents : List DocRec) (chunks : List ChunkRec) (q : List ℚ)
    (documentIds : List Str) (topK : Nat) (threshold : ℚ) :
    (searchSimilarChunks dist documents chunks q documentIds topK threshold).length ≤ topK :=
  List.length_take_le topK _

theorem sorted_searchSimilarChunks (dist : List ℚ → List ℚ → ℚ)
    (documents : List DocRec) (chunks : List ChunkRec) (q : List ℚ)
    (documentIds : List Str) (topK : Nat) (threshold : ℚ) :
    (searchSimilarChunks dist documents chunks q documentIds topK threshold).Pairwise
      (fun a b => b.similarity ≤ a.similarity) := by
  have hs : (sortDescBy (fun r : SearchRow => r.similarity)
      (chunks.filterMap (fun c =>
        match documents.find? (fun d => d.id == c.documentId) with
        | some d =>
            if c.documentId ∈ documentIds ∧ c.embedding.isSome then
              some (scoreRow dist q d c)
            else none
        | none => none))).Pairwise (fun a b => b.similarity ≤ a.similarity) :=
    pairwise_sortDescBy _ _
  have h1 : (searchFetch dist documents chunks q documentIds (topK * 2)).Pairwise
      (fun a b => b.similarity ≤ a.similarity) :=
    List.Pairwise.sublist (List.take_sublist _ _) hs
  have h2 := List.Pairwise.sublist (List.filter_sublist
    (l := searchFetch dist documents chunks q documentIds (topK * 2))
    (p := fun r => threshold ≤ r.similarity)) h1
  exact List.Pairwise.sublist (List.take_sublist _ _) h2

theorem head?_eq_some_mem {l : List α} {a : α} (h : l.head? = some a) : a ∈ l := by
  cases l with
  | nil => simp at h
  | cons b t =>
    simp only [List.head?_cons, Option.some.injEq] at h
    exact h ▸ List.mem_cons_self b t

theorem mem_of_getLast?_eq_some : ∀ {l : List α} {a : α}, l.getLast? = some a → a ∈ l := by
  intro l
  induction l with
  | nil => intro a h; simp at h
  | cons b t ih =>
    intro a h
    cases t with
    | nil =>
      simp only [List.getLast?_singleton, Option.some.injEq] at h
      simp [h]
    | cons c u =>
      rw [List.getLast?_cons_cons] at h
      exact List.mem_cons_of_mem b (ih h)

theorem cutPoint_bounds (t : Str) (maxSize overlap : Nat) (hov : overlap < maxSize) :
    overlap < cutPoint t maxSize overlap ∧ cutPoint t maxSize overlap ≤ maxSize := by
  unfold cutPoint
  rcases hh : (separators.filterMap (fun sep => sepCut sep t maxSize overlap)).head? with _ | e
  · exact ⟨by simpa using hov, by simp⟩
  · have he : e ∈ separators.filterMap (fun sep => sepCut sep t maxSize overlap) :=
      head?_eq_some_mem hh
    rcases List.mem_filterMap.mp he with ⟨sep, _, hcut⟩
    have he2 : e ∈ (List.range (maxSize + 1)).filter
        (fun e => decide (overlap < e) && sep.isSuffixOf (t.take e)) :=
      mem_of_getLast?_eq_some hcut
    have he3 := List.mem_filter.mp he2
    have he4 : overlap < e := by
      have := he3.2
      simp only [Bool.and_eq_true, decide_eq_true_eq] at this
      exact this.1
    have he5 : e ≤ maxSize := by
      have := List.mem_range.mp he3.1
      omega
    simpa using ⟨he4, he5⟩

theorem chunkLoop_spec (maxSize overlap : Nat) (hov : overlap < maxSize) :
    ∀ fuel t, t.length ≤ fuel → 1 ≤ t.length →
      ∃ c cs, chunkLoop maxSize overlap fuel t = c :: cs ∧
        c.take overlap = t.take overlap ∧
        (∀ x ∈ c :: cs, x.length ≤ maxSize) ∧
        (c :: cs).Chain' (fun a b => a.drop (a.length - overlap) = b.take overlap) ∧
        reconstruct overlap (c :: cs) = t := by
  intro fuel
  induction fuel with
  | zero => intro t hf h1; omega
  | succ fuel ih =>
    intro t hf h1
    by_cases hle : t.length ≤ maxSize
    · refine ⟨t, [], by simp [chunkLoop, hle], rfl, ?_, by simp, by simp [reconstruct]⟩
      intro x hx
      have hx' : x = t := by simpa using hx
      subst hx'
      exact hle
    · have hb := cutPoint_bounds t maxSize overlap hov
      set e := cutPoint t maxSize overlap with he
      have hovlt : overlap < e := hb.1
      have hlt : maxSize < t.length := by omega
      have hel : e < t.length := by omega
      have ht'len : (t.drop (e - overlap)).length = t.length - (e - overlap) := by simp
      have h1' : 1 ≤ (t.drop (e - overlap)).length := by omega
      have hf' : (t.drop (e - overlap)).length ≤ fuel := by omega
      obtain ⟨c', cs', heq, htake, hlen, hchain, hrec⟩ := ih (t.drop (e - overlap)) hf' h1'
      have hlen_take : (t.take e).length = e := by
        rw [List.length_take]
        omega
      have hc'len : overlap ≤ c'.length := by
        have hlens : (c'.take overlap).length = ((t.drop (e - overlap)).take overlap).length := by
          rw [htake]
        rw [List.length_take, List.length_take, ht'len] at hlens
        omega
      refine ⟨t.take e, c' :: cs', ?_, ?_, ?_, ?_, ?_⟩
      · show chunkLoop maxSize overlap (fuel + 1) t = t.take e :: c' :: cs'
        simp only [chunkLoop, if_neg hle]
        rw [← he, heq]
      · rw [List.take_take, Nat.min_eq_left (le_of_lt hovlt)]
      · intro x hx
        rcases List.mem_cons.mp hx with rfl | hx'
        · rw [hlen_take]; exact hb.2
        · exact hlen x hx'
      · rw [List.chain'_cons]
        refine ⟨?_, hchain⟩
        rw [hlen_take, List.drop_take, show e - (e - overlap) = overlap from by omega, ← htake]
      · simp only [reconstruct, List.map_cons, List.flatten_cons]
        have hd : c'.drop overlap ++ (cs'.map (fun x => x.drop overlap)).flatten
            = (c' ++ (cs'.map (fun x => x.drop overlap)).flatten).drop overlap :=
          (List.drop_append_of_le_length hc'len).symm
        rw [hd]
        have hrec' : c' ++ (cs'.map (fun x => x.drop overlap)).flatten = t.drop (e - overlap) := by
          simpa [reconstruct] using hrec
        rw [hrec', List.drop_drop, show e - overlap + overlap = e from by omega,
          List.take_append_drop]

theorem foldl_addChunk (docRowId titleStr : Str) :
    ∀ (l : List (Nat × (Str × List ℚ))) (st : Store),
      l.foldl (addChunk docRowId titleStr) st
        = { st with chunks := st.chunks ++ l.map (mkChunkRow docRowId titleStr) } := by
  intro l
  induction l with
  | nil => intro st; simp
  | cons p ps ih =>
      intro st
      rw [List.foldl_cons, ih]
      simp [addChunk]

theorem foldl_processStep_shift (fetchFor : Str → Except Str DocData)
    (embedO : List Str → Except Str (List (List ℚ))) (userId : Str) (isRefresh : Bool) :
    ∀ (ids : List Str) (st : Store) (l : List Str),
      ids.foldl (processStep fetchFor embedO userId isRefresh) (st, l)
        = ((ids.foldl (processStep fetchFor embedO userId isRefresh) (st, [])).1,
           l ++ (ids.foldl (processStep fetchFor embedO userId isRefresh) (st, [])).2) := by
  intro ids
  induction ids with
  | nil => intro st l; simp
  | cons i is ih =>
      intro st l
      rw [List.foldl_cons, List.foldl_cons]
      rcases hps : processSingleDocument (fetchFor i) embedO userId i isRefresh st
        with ⟨st1, err⟩
      cases err with
      | none =>
          have hs1 : processStep fetchFor embedO userId isRefresh (st, l) i = (st1, l) := by
            simp [processStep, hps]
          have hs2 : processStep fetchFor embedO userId isRefresh (st, []) i
              = (st1, ([] : List Str)) := by
            simp [processStep, hps]
          rw [hs1, hs2, ih st1 l]
      | some e =>
          have hs1 : processStep fetchFor embedO userId isRefresh (st, l) i
              = (st1, l ++ [i]) := by
            simp [processStep, hps]
          have hs2 : processStep fetchFor embedO userId isRefresh (st, []) i
              = (st1, [i]) := by
            simp [processStep, hps]
          rw [hs1, hs2, ih st1 (l ++ [i]), ih st1 [i]]
          simp

/-! ### Claim theorems -/

/-- C1: for every query vector, candidate document id set, `top_k` and
`similarity_threshold`, the similarity search returns only chunks whose
parent document is in the candidate set and whose embedding is non-null,
returns no result below the threshold, returns at most `top_k` results,
sorted in descending order of `similarity = 1 - distance`; the
implementation fetches `2*top_k` distance-ordered candidates, filters by
threshold, then truncates to `top_k`. -/
theorem search_contract (dist : List ℚ → List ℚ → ℚ) (documents : List DocRec)
    (chunks : List ChunkRec) (q : List ℚ) (documentIds : List Str) (topK : Nat)
    (threshold : ℚ) :
    (∀ r ∈ searchSimilarChunks dist documents chunks q documentIds topK threshold,
        r.documentId ∈ documentIds ∧
          ∃ c ∈ chunks, c.documentId = r.documentId ∧ c.content = r.content ∧
            c.chunkIndex = r.chunkIndex ∧ c.embedding ≠ none ∧
            r.similarity = 1 - dist (c.embedding.getD []) q) ∧
    (∀ r ∈ searchSimilarChunks dist documents chunks q documentIds topK threshold,
        threshold ≤ r.similarity) ∧
    (searchSimilarChunks dist documents chunks q documentIds topK threshold).length ≤ topK ∧
    (searchSimilarChunks dist documents chunks q documentIds topK threshold).Pairwise
      (fun a b => b.similarity ≤ a.similarity) ∧
    searchSimilarChunks dist documents chunks q documentIds topK threshold
      = ((searchFetch dist documents chunks q documentIds (topK * 2)).filter
          (fun r => threshold ≤ r.similarity)).take topK :=
  ⟨fun r hr => mem_searchSimilarChunks dist documents chunks q documentIds topK threshold r hr,
   fun r hr =>
     threshold_searchSimilarChunks dist documents chunks q documentIds topK threshold r hr,
   length_searchSimilarChunks dist documents chunks q documentIds topK threshold,
   sorted_searchSimilarChunks dist documents chunks q documentIds topK threshold,
   rfl⟩

/-- Witness for C1 at a concrete one-document store. -/
theorem search_contract_witness :
    rowW.documentId ∈ ["d1".toList] ∧ (0 : ℚ) ≤ rowW.similarity ∧
      (searchSimilarChunks distW [docW] [chunkW] [] ["d1".toList] 1 0).length ≤ 1 :=
  ⟨((search_contract distW [docW] [chunkW] [] ["d1".toList] 1 0).1 rowW
      (by with_unfolding_all decide)).1,
   (search_contract distW [docW] [chunkW] [] ["d1".toList] 1 0).2.1 rowW
      (by with_unfolding_all decide),
   (search_contract distW [docW] [chunkW] [] ["d1".toList] 1 0).2.2.1⟩

/-- C2: the candidate set passed to similarity search is exactly the
querying user's own processed documents, and no returned chunk can belong
to another user's document, for any distance operator (hence even when two
users' documents score identically). -/
theorem search_user_isolation (dist : List ℚ → List ℚ → ℚ) (documents : List DocRec)
    (chunks : List ChunkRec) (q : List ℚ) (userId : Str) (topK : Nat) (threshold : ℚ)
    (hnodup : (documents.map (fun d => d.id)).Nodup) :
    (∀ d ∈ candidateDocuments userId documents,
        d ∈ documents ∧ d.userId = userId ∧ d.isProcessed = true) ∧
    (∀ d ∈ documents, d.userId = userId → d.isProcessed = true →
        d ∈ candidateDocuments userId documents) ∧
    (∀ r ∈ searchSimilarChunks dist documents chunks q (candidateIds userId documents)
        topK threshold,
        ∃ d ∈ documents, d.id = r.documentId ∧ d.userId = userId ∧ d.isProcessed = true) ∧
    (∀ dOther ∈ documents, dOther.userId ≠ userId →
      ∀ r ∈ searchSimilarChunks dist documents chunks q (candidateIds userId documents)
          topK threshold,
        r.documentId ≠ dOther.id) := by
  have hmain : ∀ r ∈ searchSimilarChunks dist documents chunks q
      (candidateIds userId documents) topK threshold,
      ∃ d ∈ documents, d.id = r.documentId ∧ d.userId = userId ∧ d.isProcessed = true := by
    intro r hr
    have h1 := (mem_searchSimilarChunks dist documents chunks q _ topK threshold r hr).1
    rcases List.mem_map.mp h1 with ⟨d, hd, hdid⟩
    have h2 := List.mem_filter.mp hd
    have h3 := h2.2
    simp only [Bool.and_eq_true, beq_iff_eq] at h3
    exact ⟨d, h2.1, hdid, h3.1, h3.2⟩
  refine ⟨?_, ?_, hmain, ?_⟩
  · intro d hd
    have h2 := List.mem_filter.mp hd
    have h3 := h2.2
    simp only [Bool.and_eq_true, beq_iff_eq] at h3
    exact ⟨h2.1, h3.1, h3.2⟩
  · intro d hd hu hp
    refine List.mem_filter.mpr ⟨hd, ?_⟩
    simp [hu, hp]
  · intro dOther hdo hne r hr hid
    rcases hmain r hr with ⟨d, hd, hdid, hdu, _⟩
    have hded : d = dOther := List.inj_on_of_nodup_map hnodup hd hdo (by rw [hdid, hid])
    rw [hded] at hdu
    exact hne hdu

/-- Witness for C2 at a concrete two-user store. -/
theorem search_user_isolation_witness :
    rowW.documentId ≠ docW2.id ∧
      docW ∈ candidateDocuments ("u1".toList) [docW, docW2] :=
  ⟨(search_user_isolation distW [docW, docW2] [chunkW, chunkW2] [] ("u1".toList) 5 0
      (by with_unfolding_all decide)).2.2.2 docW2 (by with_unfolding_all decide)
      (by with_unfolding_all decide) rowW (by with_unfolding_all decide),
   (search_user_isolation distW [docW, docW2] [chunkW, chunkW2] [] ("u1".toList) 5 0
      (by with_unfolding_all decide)).2.1 docW (by with_unfolding_all decide)
      (by with_unfolding_all decide) (by with_unfolding_all decide)⟩

/-- C3 counterexample: the claim quantifies over every non-empty input, but
splitting the non-empty whitespace-only text `" "` yields no chunks, so
concatenation-with-overlap-removed cannot reconstruct it. -/
theorem chunker_claim_counterexample :
    [' '] ≠ ([] : Str) ∧ chunkerSplit [' '] 4 1 = [] ∧
      reconstruct 1 (chunkerSplit [' '] 4 1) ≠ [' '] :=
  ⟨by decide, by decide, by decide⟩

/-- C3 (amended): for every input text that is not whitespace-only and
every configuration with `overlap < max_size`, the chunker's split produces
chunks each of length at most `max_size`, the tail of each chunk equals the
head of the next for `overlap` characters, and concatenating the chunks
with each overlap removed reconstructs the original text exactly. -/
theorem chunker_split_spec (t : Str) (maxSize overlap : Nat) (hov : overlap < maxSize)
    (hw : t.all Char.isWhitespace = false) :
    (∀ x ∈ chunkerSplit t maxSize overlap, x.length ≤ maxSize) ∧
    (chunkerSplit t maxSize overlap).Chain'
      (fun a b => a.drop (a.length - overlap) = b.take overlap) ∧
    reconstruct overlap (chunkerSplit t maxSize overlap) = t := by
  have h1 : 1 ≤ t.length := by
    cases t with
    | nil => simp at hw
    | cons a u => simp
  obtain ⟨c, cs, heq, -, hlen, hchain, hrec⟩ :=
    chunkLoop_spec maxSize overlap hov t.length t (le_refl t.length) h1
  unfold chunkerSplit
  rw [if_neg (by simp [hw] : ¬ t.all Char.isWhitespace = true), heq]
  exact ⟨hlen, hchain, hrec⟩

/-- Witness for C3 at the text `"abc"` with `max_size = 2`, `overlap = 1`. -/
theorem chunker_split_spec_witness :
    1 < 2 ∧ (['a', 'b', 'c'].all Char.isWhitespace = false) ∧
      reconstruct 1 (chunkerSplit ['a', 'b', 'c'] 2 1) = ['a', 'b', 'c'] :=
  ⟨by decide, by decide, (chunker_split_spec ['a', 'b', 'c'] 2 1 (by decide) (by decide)).2.2⟩

/-- C4: splitting empty or whitespace-only text yields no chunks, and when
the chunking step of ingestion yields zero chunks the document row ends
with `isProcessed = true`, no chunk row is created, and the ingestion of
that document ends without error. -/
theorem chunker_empty_zero_chunk_ingest :
    (∀ (t : Str) (maxSize overlap : Nat), t.all Char.isWhitespace = true →
        chunkerSplit t maxSize overlap = []) ∧
    chunkerSplit [] 1000 200 = [] ∧
    chunkerSplit [' ', ' ', ' '] 1000 200 = [] ∧
    (∀ (embedO : List Str → Except Str (List (List ℚ))) (userId gid : Str)
        (dd : DocData) (isRefresh : Bool) (st : Store),
      splitText dd.content = [] →
      (isRefresh = true ∨ st.documents.find? (fun d => d.googleDocId == gid) = none) →
      (processSingleDocument (.ok dd) embedO userId gid isRefresh st).2 = none ∧
      (∀ c ∈ (processSingleDocument (.ok dd) embedO userId gid isRefresh st).1.chunks,
          c ∈ st.chunks) ∧
      (∃ d ∈ (processSingleDocument (.ok dd) embedO userId gid isRefresh st).1.documents,
          d.googleDocId = gid ∧ d.isProcessed = true)) := by
  refine ⟨?_, by decide, by decide, ?_⟩
  · intro t maxSize overlap hw
    unfold chunkerSplit
    rw [if_pos hw]
  · intro embedO userId gid dd isRefresh st hsplit hsel
    have hcep : ∀ (docRowId : Str) (st0 : Store),
        chunkEmbedPersist embedO docRowId dd st0 = (markProcessed docRowId st0, none) := by
      intro docRowId st0
      unfold chunkEmbedPersist
      rw [hsplit]
      simp
    rcases hfind : st.documents.find? (fun d => d.googleDocId == gid) with _ | ex
    · -- new document branch
      have heq : processSingleDocument (.ok dd) embedO userId gid isRefresh st
          = (markProcessed (genId st.nextId) (createStore userId gid dd st), none) := by
        simp only [processSingleDocument, hfind, hcep]
      rw [heq]
      refine ⟨rfl, ?_, ?_⟩
      · intro c hc
        simpa [markProcessed, createStore] using hc
      · refine ⟨{ createdDoc userId gid dd st.nextId with isProcessed := true }, ?_,
          by simp [createdDoc], by simp⟩
        simp only [markProcessed, createStore]
        refine List.mem_map.mpr ?_
        refine ⟨createdDoc userId gid dd st.nextId, ?_, by simp [createdDoc]⟩
        exact List.mem_append_right _ (List.mem_singleton.mpr rfl)
    · -- existing document: by the hypothesis this is a refresh
      have href : isRefresh = true := by
        rcases hsel with h | h
        · exact h
        · rw [hfind] at h; cases h
      subst href
      have heq : processSingleDocument (.ok dd) embedO userId gid true st
          = (markProcessed ex.id
              (refreshDocUpdate ex.id dd (deleteChunksOf ex.id st)), none) := by
        simp only [processSingleDocument, hfind, Bool.not_true, Bool.false_eq_true,
          if_false, hcep]
      rw [heq]
      have hexmem : ex ∈ st.documents := List.mem_of_find?_eq_some hfind
      have hexid : ex.googleDocId = gid := by
        have := List.find?_some hfind
        simpa using this
      refine ⟨rfl, ?_, ?_⟩
      · intro c hc
        simp only [markProcessed, refreshDocUpdate, deleteChunksOf] at hc
        exact List.mem_of_mem_filter hc
      · refine ⟨{ ex with title := dd.title, content := dd.content, isProcessed := true }, ?_, by simpa using hexid, rfl⟩
        simp only [markProcessed, refreshDocUpdate, deleteChunksOf]
        refine List.mem_map.mpr ?_
        refine ⟨{ ex with title := dd.title, content := dd.content, isProcessed := false }, ?_, by simp⟩
        refine List.mem_map.mpr ⟨ex, hexmem, by simp⟩

/-- Witness for C4: ingesting a document whose fetched content is empty. -/
theorem chunker_empty_zero_chunk_ingest_witness :
    splitText ddEmptyW.content = [] ∧
      (processSingleDocument (.ok ddEmptyW) embedOW ("u1".toList)
        ("g1".toList) false emptyStore).2 = none :=
  ⟨by decide,
   (chunker_empty_zero_chunk_ingest.2.2.2 embedOW ("u1".toList)
      ("g1".toList) ddEmptyW false emptyStore (by decide)
      (Or.inr (by decide))).1⟩

/-- C5: ingesting an existing document without refresh leaves the store
unchanged; with refresh, all prior chunks of that document are deleted, the
stored content is overwritten, and the chunks are recreated with unique
contiguous ordinals starting at 0 (no collisions, no orphaned rows), ending
with `isProcessed = true`. -/
theorem ingest_idempotent_and_refresh (embedO : List Str → Except Str (List (List ℚ)))
    (userId gid : Str) (dd : DocData) (embs : List (List ℚ)) (ex : DocRec) (st : Store)
    (hfind : st.documents.find? (fun d => d.googleDocId == gid) = some ex)
    (hembed : embedO (splitText dd.content) = .ok embs)
    (hne : (splitText dd.content).isEmpty = false) :
    processSingleDocument (.ok dd) embedO userId gid false st = (st, none) ∧
    (processSingleDocument (.ok dd) embedO userId gid true st).2 = none ∧
    (processSingleDocument (.ok dd) embedO userId gid true st).1.chunks
      = st.chunks.filter (fun c => c.documentId != ex.id)
        ++ newChunks ex.id dd.title (splitText dd.content) embs ∧
    ((newChunks ex.id dd.title (splitText dd.content) embs).map (fun c => c.chunkIndex))
      = List.range ((splitText dd.content).zip embs).length ∧
    (∀ c ∈ newChunks ex.id dd.title (splitText dd.content) embs, c.documentId = ex.id) ∧
    ((processSingleDocument (.ok dd) embedO userId gid true st).1.chunks.filter
        (fun c => c.documentId == ex.id))
      = newChunks ex.id dd.title (splitText dd.content) embs ∧
    (∀ d ∈ (processSingleDocument (.ok dd) embedO userId gid true st).1.documents,
        d.id = ex.id → d.content = dd.content ∧ d.isProcessed = true) ∧
    (∃ d ∈ (processSingleDocument (.ok dd) embedO userId gid true st).1.documents,
        d.id = ex.id ∧ d.isProcessed = true) := by
  have hnew : ∀ c ∈ newChunks ex.id dd.title (splitText dd.content) embs,
      c.documentId = ex.id := by
    intro c hc
    rcases List.mem_map.mp hc with ⟨p, _, hp⟩
    rw [← hp]
    rfl
  have heq : processSingleDocument (.ok dd) embedO userId gid true st
      = (markProcessed ex.id
          { refreshDocUpdate ex.id dd (deleteChunksOf ex.id st) with
            chunks := (refreshDocUpdate ex.id dd (deleteChunksOf ex.id st)).chunks
              ++ newChunks ex.id dd.title (splitText dd.content) embs }, none) := by
    simp only [processSingleDocument, hfind, Bool.not_true, Bool.false_eq_true, if_false]
    unfold chunkEmbedPersist
    simp only [hne, Bool.false_eq_true, if_false, hembed, foldl_addChunk, newChunks]
  have hchunks : (processSingleDocument (.ok dd) embedO userId gid true st).1.chunks
      = st.chunks.filter (fun c => c.documentId != ex.id)
        ++ newChunks ex.id dd.title (splitText dd.content) embs := by
    rw [heq]
    simp [markProcessed, refreshDocUpdate, deleteChunksOf]
  refine ⟨?_, ?_, hchunks, ?_, hnew, ?_, ?_, ?_⟩
  · simp [processSingleDocument, hfind]
  · rw [heq]
  · calc (newChunks ex.id dd.title (splitText dd.content) embs).map
          (fun c => c.chunkIndex)
        = ((splitText dd.content).zip embs).enum.map Prod.fst := by
          unfold newChunks
          rw [List.map_map]
          rfl
      _ = List.range (((splitText dd.content).zip embs).length) :=
          List.enum_map_fst ((splitText dd.content).zip embs)
  · rw [hchunks, List.filter_append]
    have h1 : (st.chunks.filter (fun c => c.documentId != ex.id)).filter
        (fun c => c.documentId == ex.id) = [] := by
      rw [List.filter_eq_nil_iff]
      intro c hc
      have h2 := List.of_mem_filter hc
      simp only [bne_iff_ne, ne_eq] at h2
      simp only [beq_iff_eq]
      exact h2
    have h2 : (newChunks ex.id dd.title (splitText dd.content) embs).filter
        (fun c => c.documentId == ex.id)
        = newChunks ex.id dd.title (splitText dd.content) embs := by
      rw [List.filter_eq_self]
      intro c hc
      simp only [beq_iff_eq]
      exact hnew c hc
    rw [h1, h2, List.nil_append]
  · intro d hd hid
    rw [heq] at hd
    simp only [markProcessed, refreshDocUpdate, deleteChunksOf] at hd
    rcases List.mem_map.mp hd with ⟨d1, hd1, hmark⟩
    rcases List.mem_map.mp hd1 with ⟨d0, _, hupd⟩
    by_cases h0 : d0.id == ex.id
    · rw [if_pos h0] at hupd
      have hid1 : d1.id = d0.id := by rw [← hupd]
      have h1 : (d1.id == ex.id) = true := by
        rw [hid1]
        exact h0
      rw [if_pos h1] at hmark
      rw [← hmark, ← hupd]
      exact ⟨rfl, rfl⟩
    · rw [if_neg h0] at hupd
      subst hupd
      have h1 : (d0.id == ex.id) = false := by
        simpa using h0
      rw [h1] at hmark
      simp only [Bool.false_eq_true, if_false] at hmark
      subst hmark
      rw [hid] at h0
      simp at h0
  · rw [heq]
    have hexmem : ex ∈ st.documents := List.mem_of_find?_eq_some hfind
    refine ⟨{ ex with title := dd.title, content := dd.content, isProcessed := true }, ?_, rfl, rfl⟩
    simp only [markProcessed, refreshDocUpdate, deleteChunksOf]
    refine List.mem_map.mpr ?_
    refine ⟨{ ex with title := dd.title, content := dd.content, isProcessed := false }, ?_, by simp⟩
    refine List.mem_map.mpr ⟨ex, hexmem, by simp⟩

/-- Witness for C5: refreshing the one-document store. -/
theorem ingest_idempotent_and_refresh_witness :
    processSingleDocument (.ok ddW) embedOW ("u1".toList) ("g1".toList)
        false storeW = (storeW, none) ∧
      (processSingleDocument (.ok ddW) embedOW ("u1".toList) ("g1".toList)
        true storeW).2 = none :=
  ⟨(ingest_idempotent_and_refresh embedOW ("u1".toList) ("g1".toList) ddW
      [[1]] docW storeW (by decide) (by decide) (by decide)).1,
   (ingest_idempotent_and_refresh embedOW ("u1".toList) ("g1".toList) ddW
      [[1]] docW storeW (by decide) (by decide) (by decide)).2.1⟩

/-- C6 counterexample: two batch runs over the ids `["a", "b"]`, one where
`"a"` fails to fetch and one where everything succeeds, have different
skipped sets, yet the response returned to the route caller is identical —
the batch call reports a count and a status, never which documents were
skipped. -/
theorem batch_report_counterexample :
    (selectDocuments fetchFailAW embedOW ("u1".toList)
        ["a".toList, "b".toList] emptyStore).2.2 = ["a".toList] ∧
    (selectDocuments fetchOkW embedOW ("u1".toList)
        ["a".toList, "b".toList] emptyStore).2.2 = [] ∧
    (selectDocuments fetchFailAW embedOW ("u1".toList)
        ["a".toList, "b".toList] emptyStore).1
      = (selectDocuments fetchOkW embedOW ("u1".toList)
        ["a".toList, "b".toList] emptyStore).1 :=
  ⟨by with_unfolding_all decide, by with_unfolding_all decide, rfl⟩

/-- C6 (amended): any failure while processing one document — fetch,
chunking, embedding, or persistence, modelled as the single-document run
ending in an error with whatever partial state it leaves behind — is caught
and the failed id logged, processing continues with the remaining ids from
that state, and the batch call itself always returns; the skipped ids
appear only in the log, not in the value returned to the caller. -/
theorem batch_failure_isolation (fetchFor : Str → Except Str DocData)
    (embedO : List Str → Except Str (List (List ℚ))) (userId : Str) (isRefresh : Bool)
    (ids1 ids2 : List Str) (badId e : Str) (st stBad : Store)
    (hbad : processSingleDocument (fetchFor badId) embedO userId badId isRefresh
        (processDocuments fetchFor embedO userId isRefresh ids1 st).1
      = (stBad, some e)) :
    processDocuments fetchFor embedO userId isRefresh (ids1 ++ badId :: ids2) st
      = ((processDocuments fetchFor embedO userId isRefresh ids2 stBad).1,
         (processDocuments fetchFor embedO userId isRefresh ids1 st).2
           ++ [badId]
           ++ (processDocuments fetchFor embedO userId isRefresh ids2 stBad).2) := by
  unfold processDocuments at hbad ⊢
  rw [List.foldl_append, List.foldl_cons]
  set F1 := ids1.foldl (processStep fetchFor embedO userId isRefresh) (st, []) with hF1
  have hstep : processStep fetchFor embedO userId isRefresh F1 badId
      = (stBad, F1.2 ++ [badId]) := by
    unfold processStep
    rw [hbad]
  rw [hstep, foldl_processStep_shift fetchFor embedO userId isRefresh ids2]

/-- Witness for C6: a concrete embedding failure — the partial store, with
the new unprocessed document row, persists while the next id is still
processed and the failed id is logged. -/
theorem batch_failure_isolation_witness :
    processDocuments fetchOkW embedFailOW ("u1".toList) false
        ([] ++ ("a".toList) :: [("b".toList)]) emptyStore
      = ((processDocuments fetchOkW embedFailOW ("u1".toList) false [("b".toList)]
            (createStore ("u1".toList) ("a".toList) ddW emptyStore)).1,
         (processDocuments fetchOkW embedFailOW ("u1".toList) false [] emptyStore).2
           ++ [("a".toList)]
           ++ (processDocuments fetchOkW embedFailOW ("u1".toList) false [("b".toList)]
                (createStore ("u1".toList) ("a".toList) ddW emptyStore)).2) :=
  batch_failure_isolation fetchOkW embedFailOW ("u1".toList) false [] [("b".toList)]
    ("a".toList) ("EMB".toList) emptyStore
    (createStore ("u1".toList) ("a".toList) ddW emptyStore)
    (by with_unfolding_all decide)

/-- C7 counterexample: with the vector engine failing (the raw search
raising), the query call does not fail — it succeeds with the fallback
answer and `found_in_documents = false`, because `_search_similar_chunks`
catches the exception and returns an empty list. -/
theorem search_failure_not_propagated :
    ((query oSearchFailW ("u1".toList) ("q".toList)
        (some ("s1".toList)) emptyStore).toOption.map
          (fun p => (p.1.answer, p.1.foundInDocuments)))
      = some ("fb".toList, false) := by
  with_unfolding_all decide

/-- C7 (amended): embedding and answer-generation failures during a query,
and model failures during a summarize call, propagate to the caller as a
single failure with no partial result; but a failure of the vector
similarity search is caught inside the search step and treated as an empty
result, so the query call succeeds along the fallback path. -/
theorem failure_propagation (o : RagOracles) (so : SumOracles) (userId question : Str)
    (sessionId? : Option Str) (documentIds : List Str) (summaryType : Str) (st : Store) :
    (∀ e, o.embed question = .error e →
        query o userId question sessionId? st
          = .error (e, preSearchStore userId question sessionId? st)) ∧
    (∀ qe e, o.embed question = .ok qe →
        (if (searchCaught o userId qe (preSearchStore userId question sessionId? st)).isEmpty
         then o.genFallback question
         else o.genContext question
           (searchCaught o userId qe (preSearchStore userId question sessionId? st)))
          = .error e →
        query o userId question sessionId? st
          = .error (e, preSearchStore userId question sessionId? st)) ∧
    (∀ e, ((st.documents.filter
          (fun d => documentIds.contains d.id && d.userId == userId)).isEmpty = false) →
        summarizeGen so (st.documents.filter
          (fun d => documentIds.contains d.id && d.userId == userId)) summaryType
          = .error e →
        summarizeDocuments so userId documentIds summaryType st = .error e) ∧
    (∀ qe ans, o.rawSearchOk = false → o.embed question = .ok qe →
        o.genFallback question = .ok ans →
        ∃ st', query o userId question sessionId? st
          = .ok ({ answer := ans, sources := [],
                   sessionId := (sessionResolve userId question sessionId? st).1,
                   foundInDocuments := false }, st')) := by
  refine ⟨?_, ?_, ?_, ?_⟩
  · intro e he
    simp [query, he]
  · intro qe e he hgen
    simp only [query, he, hgen]
  · intro e hne hgen
    simp only [summarizeDocuments, hne, Bool.false_eq_true, if_false, hgen]
  · intro qe ans hraw hemb hfb
    exact ⟨_, by
      simp only [query, hemb, searchCaught, hraw, Bool.false_eq_true, if_false,
        List.isEmpty_nil, if_true, hfb, List.map_nil, Bool.not_true]
      rfl⟩

/-- Witness for C7 at a concrete failing embedding provider. -/
theorem failure_propagation_witness :
    query oEmbedFailW ("u1".toList) ("q".toList) none emptyStore
      = .error ("E".toList,
          preSearchStore ("u1".toList) ("q".toList) none emptyStore) :=
  (failure_propagation oEmbedFailW soW ("u1".toList) ("q".toList) none []
      ("concise".toList) emptyStore).1 ("E".toList) (by decide)

/-- C8: the user message is persisted in step 2, before embedding, search,
synthesis and assistant-message persistence; when any later step fails the
query call fails, but the user message is still present in the store the
failure leaves behind (the write is not rolled back) — and it is present
on success as well. -/
theorem user_message_persisted (o : RagOracles) (userId question : Str)
    (sessionId? : Option Str) (st : Store) :
    (∀ e st', query o userId question sessionId? st = .error (e, st') →
        hasUserMessage question st' = true) ∧
    (∀ r st', query o userId question sessionId? st = .ok (r, st') →
        hasUserMessage question st' = true) := by
  have hpre : ((preSearchStore userId question sessionId? st).messages.any
      (fun m => m.role == Role.user && m.content == question)) = true := by
    simp [preSearchStore, withUserMessage]
  constructor
  · intro e st' h
    rcases hemb : o.embed question with e0 | qe
    · simp only [query, hemb] at h
      rcases h with ⟨h1, h2⟩
      exact hpre
    · rcases hgen : (if (searchCaught o userId qe
          (preSearchStore userId question sessionId? st)).isEmpty
          then o.genFallback question
          else o.genContext question (searchCaught o userId qe
            (preSearchStore userId question sessionId? st))) with eg | ans
      · simp only [query, hemb, hgen] at h
        rcases h with ⟨h1, h2⟩
        exact hpre
      · simp only [query, hemb, hgen] at h
        exact Except.noConfusion h
  · intro r st' h
    rcases hemb : o.embed question with e0 | qe
    · simp only [query, hemb] at h
      exact Except.noConfusion h
    · rcases hgen : (if (searchCaught o userId qe
          (preSearchStore userId question sessionId? st)).isEmpty
          then o.genFallback question
          else o.genContext question (searchCaught o userId qe
            (preSearchStore userId question sessionId? st))) with eg | ans
      · simp only [query, hemb, hgen] at h
        exact Except.noConfusion h
      · simp only [query, hemb, hgen] at h
        rcases h with ⟨h1, h2⟩
        simp [hasUserMessage, touchSession, List.any_append, hpre]

/-- Witness for C8: after a failing embedding call the error-side store
still holds the user message. -/
theorem user_message_persisted_witness :
    hasUserMessage ("q".toList) errStoreW = true :=
  (user_message_persisted oEmbedFailW ("u1".toList) ("q".toList) none
      emptyStore).1 ("E".toList) errStoreW (by decide)

/-- C9: on a successful query, `found_in_documents` is true exactly when
the grounding chunk set is non-empty (the citation list is its image, so an
empty search yields an empty citation list and `found_in_documents =
false`), and every citation's `chunkText` is the full chunk text when it is
within the 200-character preview bound and the 200-character prefix plus an
ellipsis otherwise — its length never exceeds 203. -/
theorem query_found_and_citation_cap (o : RagOracles) (userId question : Str)
    (sessionId? : Option Str) (st : Store) :
    ∀ r st', query o userId question sessionId? st = .ok (r, st') →
      r.foundInDocuments = !r.sources.isEmpty ∧
      (∀ s ∈ r.sources, s.chunkText.length ≤ 200 + 3 ∧
        ∃ row : SearchRow, s = mkSource row ∧
          (200 < row.content.length →
            s.chunkText = row.content.take 200 ++ ['.', '.', '.']) ∧
          (row.content.length ≤ 200 → s.chunkText = row.content)) ∧
      (∀ qe, o.embed question = .ok qe →
        r.foundInDocuments
            = !(searchCaught o userId qe
                (preSearchStore userId question sessionId? st)).isEmpty ∧
        r.sources = (searchCaught o userId qe
            (preSearchStore userId question sessionId? st)).map mkSource) := by
  intro r st' h
  rcases hemb : o.embed question with e0 | qe
  · simp only [query, hemb] at h
    exact Except.noConfusion h
  · rcases hgen : (if (searchCaught o userId qe
        (preSearchStore userId question sessionId? st)).isEmpty
        then o.genFallback question
        else o.genContext question (searchCaught o userId qe
          (preSearchStore userId question sessionId? st))) with eg | ans
    · simp only [query, hemb, hgen] at h
      exact Except.noConfusion h
    · simp only [query, hemb, hgen] at h
      rcases h with ⟨h1, h2⟩
      refine ⟨?_, ?_, ?_⟩
      · show (!(searchCaught o userId qe
            (preSearchStore userId question sessionId? st)).isEmpty)
          = !(List.map mkSource (searchCaught o userId qe
              (preSearchStore userId question sessionId? st))).isEmpty
        cases searchCaught o userId qe (preSearchStore userId question sessionId? st) <;> rfl
      · intro s hs
        simp only at hs
        rcases List.mem_map.mp hs with ⟨row, _, hsrow⟩
        subst hsrow
        constructor
        · by_cases hlen : 200 < row.content.length
          · simp only [mkSource, if_pos hlen]
            rw [List.length_append, List.length_take]
            simp
          · simp only [mkSource, if_neg hlen]
            omega
        · refine ⟨row, rfl, ?_, ?_⟩
          · intro hlen
            simp [mkSource, hlen]
          · intro hlen
            have hnlt : ¬ 200 < row.content.length := by omega
            simp [mkSource, hnlt]
      · intro qe' hqe'
        injection hqe' with hq
        subst hq
        exact ⟨rfl, rfl⟩

/-- Witness for C9 at a concrete grounded query. -/
theorem query_found_and_citation_cap_witness :
    queryResW.foundInDocuments = !queryResW.sources.isEmpty :=
  ((query_found_and_citation_cap oGoodW ("u1".toList) ("q".toList)
      (some ("s1".toList)) storeW) queryResW queryStoreW
      (by with_unfolding_all decide)).1

/-- C10: the streaming query writes nothing to the persistence layer — the
store is identical after the call, in particular sessions and messages are
untouched — and its outcome does not depend on the supplied session id,
which is never used. -/
theorem query_stream_no_writes (o : RagOracles) (userId question : Str)
    (sessionId? : Option Str) (st : Store) :
    (queryStream o userId question sessionId? st).2 = st ∧
    (queryStream o userId question sessionId? st).2.sessions = st.sessions ∧
    (queryStream o userId question sessionId? st).2.messages = st.messages ∧
    (∀ sid1 sid2 : Option Str,
        queryStream o userId question sid1 st = queryStream o userId question sid2 st) := by
  have h2 : (queryStream o userId question sessionId? st).2 = st := by
    rcases hemb : o.embed question with e | qe
    · simp [queryStream, hemb]
    · simp [queryStream, hemb]
  exact ⟨h2, by rw [h2], by rw [h2], fun sid1 sid2 => rfl⟩

